import Mathlib

/-!
Shallow embedding of `archive_files.py`: an incremental archive-submission
batch job.  The script loads a CSV of file records, and for each record
either skips it (already archived / removed), asks the Wayback Machine
whether a snapshot exists (`check_if_archived`), or submits it to the save
endpoint with a bounded retry loop; after every successful transition it
rewrites the whole CSV and a small stats file, and once more at loop exit.

External effects (network responses, the wall clock, file existence) are
modelled as explicit oracles threaded through the definitions; file writes
are modelled as histories of written values.
-/

/-- Record: one CSV row, with the six columns of the fixed schema
`creation,size,fullpath,added,removed,wayback_url`.  Optional fields are
the empty string when absent (csv.DictReader semantics for this schema). -/
structure Record where
  creation : String
  size : String
  fullpath : String
  added : String
  removed : String
  wayback_url : String
deriving DecidableEq

/-- Default record used for out-of-range `List.getD` lookups. -/
def dfltRec : Record := ⟨"", "", "", "", "", ""⟩

/-- Python truthiness of a `str`-or-`None` value: `None` and `""` are falsy. -/
def pyTruthy : Option String → Bool
  | none => false
  | some s => s != ""

/-- Shape of the availability endpoint's JSON field
`archived_snapshots.closest`: the truthiness of `closest.get('available')`
and the optional `closest['url']` key. -/
structure Closest where
  available : Bool
  url : Option String
deriving DecidableEq

/-- Shape of the JSON field `archived_snapshots`: an optional `closest`. -/
structure ArchivedSnapshots where
  closest : Option Closest
deriving DecidableEq

/-- Outcome of one availability-check request, as seen by
`check_if_archived`'s `try` block: a raised transport/timeout error, a body
that `json.loads` rejects, or a parsed JSON document (with the optional
`archived_snapshots` member). -/
inductive CheckResponse where
  | transportError
  | malformedBody
  | json (archived_snapshots : Option ArchivedSnapshots)
deriving DecidableEq

/-- Body of `check_if_archived`'s `try` block (archive_files.py lines
15-22): raises on transport errors and malformed JSON, otherwise returns
the closest snapshot's url (defaulted to `""`) when the service reports it
available, and `None` when it does not. -/
def check_body : CheckResponse → Except String (Option String)
  | CheckResponse.transportError => Except.error "transport error"
  | CheckResponse.malformedBody => Except.error "malformed json"
  | CheckResponse.json snaps =>
    match snaps with
    | some a =>
      match a.closest with
      | some c =>
        if c.available then Except.ok (some (c.url.getD "")) else Except.ok none
      | none => Except.ok none
    | none => Except.ok none

/-- The function `check_if_archived` (archive_files.py lines 14-25): the
`try` body with every exception caught (logged and swallowed), falling
through to `return None`. -/
def check_if_archived (r : CheckResponse) : Option String :=
  match check_body r with
  | Except.ok v => v
  | Except.error _ => none

/-- Spec-side characterization (§4.2 of the spec): the closest available
snapshot's url, `none` for every failure or non-availability.  Stated
directly on the response shape, with no exception handling, to compare
against `check_if_archived`. -/
def availableClosestUrl : CheckResponse → Option String
  | CheckResponse.json (some ⟨some c⟩) =>
    if c.available then some (c.url.getD "") else none
  | _ => none

/-- Outcome of one submission request (one iteration of the retry loop's
`try`): a 2xx response carrying an optional `Content-Location` header and
the final resolved URL, an `HTTPError` with a status code, or any other
exception (transport error, timeout). -/
inductive SubmitOutcome where
  | success (contentLocation : Option String) (finalUrl : String)
  | httpError (code : Nat)
  | exn
deriving DecidableEq

/-- Archive URL derived from a successful save response (archive_files.py
lines 111-115): the `Content-Location` header prefixed with the service
origin when truthy, else the final resolved response URL. -/
def mkArchivedUrl (contentLocation : Option String) (finalUrl : String) : String :=
  if pyTruthy contentLocation then
    "https://web.archive.org" ++ contentLocation.getD ""
  else finalUrl

/-- Result of the submission retry loop: the archive URL when it succeeded
(`none` means the loop ended with `success = False`), how many requests
were issued, and the sleeps performed between attempts (seconds). -/
structure SubmitResult where
  result : Option String
  attemptsMade : Nat
  waits : List Nat
deriving DecidableEq

/-- The retry loop `for attempt in range(5)` of archive_files.py lines
105-153, from attempt index `attempt` with `fuel` loop iterations left.
HTTP 429 sleeps 180s and retries (consuming an attempt slot); HTTP 520
sleeps `30*(attempt+1)` and retries unless on the last attempt; any other
HTTP status breaks immediately; any other exception sleeps `15*(attempt+1)`
and retries unless on the last attempt. -/
def submitFrom (oracle : Nat → SubmitOutcome) : Nat → Nat → SubmitResult
  | _, 0 => ⟨none, 0, []⟩
  | attempt, fuel + 1 =>
    match oracle attempt with
    | SubmitOutcome.success cl finalUrl => ⟨some (mkArchivedUrl cl finalUrl), 1, []⟩
    | SubmitOutcome.httpError code =>
      if code = 429 then
        let r := submitFrom oracle (attempt + 1) fuel
        ⟨r.result, r.attemptsMade + 1, 180 :: r.waits⟩
      else if code = 520 then
        if attempt < 4 then
          let r := submitFrom oracle (attempt + 1) fuel
          ⟨r.result, r.attemptsMade + 1, 30 * (attempt + 1) :: r.waits⟩
        else ⟨none, 1, []⟩
      else ⟨none, 1, []⟩
    | SubmitOutcome.exn =>
      if attempt < 4 then
        let r := submitFrom oracle (attempt + 1) fuel
        ⟨r.result, r.attemptsMade + 1, 15 * (attempt + 1) :: r.waits⟩
      else ⟨none, 1, []⟩

/-- The whole submission retry loop: 5 attempt slots starting at attempt 0. -/
def submit (oracle : Nat → SubmitOutcome) : SubmitResult :=
  submitFrom oracle 0 5

/-- Progress counters as persisted in `archive_stats.txt`. -/
structure Stats where
  new_archives : Nat
  already_archived : Nat
  failed : Nat
deriving DecidableEq

/-- The three lines written to the stats file (archive_files.py lines
44-47, 90-93, 126-129, 165-168), in the fixed key order. -/
def serializeStats (st : Stats) : List String :=
  ["new_archives=" ++ toString st.new_archives,
   "already_archived=" ++ toString st.already_archived,
   "failed=" ++ toString st.failed]

/-- The fixed `fieldnames` list passed to every `csv.DictWriter`. -/
def csvHeader : List String :=
  ["creation", "size", "fullpath", "added", "removed", "wayback_url"]

/-- One CSV data row: the record's values in the fixed field order. -/
def recordRow (r : Record) : List String :=
  [r.creation, r.size, r.fullpath, r.added, r.removed, r.wayback_url]

/-- The rows written by `writer.writeheader(); writer.writerows(records)`:
a header row followed by one row per record, in order. -/
def serializeCsv (records : List Record) : List (List String) :=
  csvHeader :: records.map recordRow

/-- The target URL built at archive_files.py line 75: the fixed origin with
the record's `fullpath` concatenated. -/
def targetUrl (r : Record) : String :=
  "http://download.tplinkcloud.com/" ++ r.fullpath

/-- External world oracles for one run: the elapsed wall-clock seconds
observed by the budget check at the top of iteration `i`, the availability
endpoint's response for the check issued at iteration `i` for a given url,
and the save endpoint's outcome for attempt `n` of the submission issued at
iteration `i` for a given url. -/
structure Env where
  elapsed : Nat → Nat
  checkResp : Nat → String → CheckResponse
  submitResp : Nat → String → Nat → SubmitOutcome

/-- Parsed command line: `--timeout` (default 300) and `--check-only`. -/
structure Config where
  timeout : Nat
  checkOnly : Bool
deriving DecidableEq

/-- In-memory state of `main`'s loop, plus the histories of file writes and
network calls it has performed.  `csvSaves` records each full rewrite of
the record file (the record list written); `statsSaves` each rewrite of the
stats file; `checkCalls` / `submitCalls` the record indices for which an
availability-check request / a submission attempt sequence was issued. -/
structure LoopState where
  records : List Record
  archived : Nat
  skipped : Nat
  found_existing : Nat
  csvSaves : List (List Record)
  statsSaves : List Stats
  checkCalls : List Nat
  submitCalls : List Nat
deriving DecidableEq

/-- Counters as the stats file is written from a loop state:
`new_archives=archived`, `already_archived=skipped+found_existing`,
`failed=0` (the literal `0` in every write site). -/
def statsOf (s : LoopState) : Stats :=
  ⟨s.archived, s.skipped + s.found_existing, 0⟩

/-- One checkpoint: rewrite the whole CSV with the current records and the
stats file with the current counters (archive_files.py lines 85-93,
121-129, 160-168). -/
def saveAll (s : LoopState) : LoopState :=
  { s with csvSaves := s.csvSaves ++ [s.records],
           statsSaves := s.statsSaves ++ [statsOf s] }

/-- The body of one loop iteration for record index `i` (archive_files.py
lines 68-158), after the budget check: skip when `wayback_url` is truthy
(counting it), skip silently when `removed` is truthy, otherwise check
availability; on a truthy hit set `wayback_url`, bump `found_existing` and
checkpoint; otherwise, unless in check-only mode, run the submission retry
loop, and on success set `wayback_url`, bump `archived` and checkpoint. -/
def stepRecord (cfg : Config) (env : Env) (i : Nat) (s : LoopState) : LoopState :=
  if (s.records.getD i dfltRec).wayback_url != "" then
    { s with skipped := s.skipped + 1 }
  else if (s.records.getD i dfltRec).removed != "" then
    s
  else if pyTruthy (check_if_archived
      (env.checkResp i (targetUrl (s.records.getD i dfltRec)))) then
    saveAll { s with
      records := s.records.set i
        { s.records.getD i dfltRec with
          wayback_url := (check_if_archived
            (env.checkResp i (targetUrl (s.records.getD i dfltRec)))).getD "" },
      found_existing := s.found_existing + 1,
      checkCalls := s.checkCalls ++ [i] }
  else if cfg.checkOnly then
    { s with checkCalls := s.checkCalls ++ [i] }
  else
    match (submit (env.submitResp i (targetUrl (s.records.getD i dfltRec)))).result with
    | some u =>
      saveAll { s with
        records := s.records.set i
          { s.records.getD i dfltRec with wayback_url := u },
        archived := s.archived + 1,
        checkCalls := s.checkCalls ++ [i],
        submitCalls := s.submitCalls ++ [i] }
    | none =>
      { s with checkCalls := s.checkCalls ++ [i],
               submitCalls := s.submitCalls ++ [i] }

/-- The record loop `for i, row in enumerate(records)` from index `i` with
`fuel` records left: each iteration first compares the elapsed time against
the timeout and breaks when exceeded, else runs the body and moves on. -/
def runFrom (cfg : Config) (env : Env) : Nat → Nat → LoopState → LoopState
  | _, 0, s => s
  | i, fuel + 1, s =>
    if env.elapsed i > cfg.timeout then s
    else runFrom cfg env (i + 1) fuel (stepRecord cfg env i s)

/-- State at loop entry: the loaded records, zero counters, and the startup
stats write `new_archives=0, already_archived=0, failed=0` (archive_files.py
lines 44-47) already in the stats history. -/
def initState (loaded : List Record) : LoopState :=
  { records := loaded, archived := 0, skipped := 0, found_existing := 0,
    csvSaves := [], statsSaves := [⟨0, 0, 0⟩], checkCalls := [], submitCalls := [] }

/-- The whole record loop over all loaded records. -/
def runLoop (cfg : Config) (env : Env) (loaded : List Record) : LoopState :=
  runFrom cfg env 0 loaded.length (initState loaded)

/-- The loop followed by the final unconditional checkpoint of both files
(archive_files.py lines 160-168). -/
def mainRun (cfg : Config) (env : Env) (loaded : List Record) : LoopState :=
  saveAll (runLoop cfg env loaded)

/-- Observable outcome of one invocation of `main`. -/
structure MainResult where
  exitCode : Nat
  statsWrites : List Stats
  csvWrites : List (List Record)
  checkCalls : List Nat
  submitCalls : List Nat
deriving DecidableEq

/-- The function `main` (archive_files.py lines 28-171): the stats file is
first overwritten with all-zero counters; then, if the input CSV does not
exist, the run returns exit code 1 with no further writes and no network
calls; otherwise the records are loaded and the loop runs to its final
checkpoint, returning exit code 0. -/
def mainEntry (fileExists : Bool) (cfg : Config) (env : Env)
    (loaded : List Record) : MainResult :=
  if fileExists then
    ⟨0, (mainRun cfg env loaded).statsSaves, (mainRun cfg env loaded).csvSaves,
     (mainRun cfg env loaded).checkCalls, (mainRun cfg env loaded).submitCalls⟩
  else
    ⟨1, [⟨0, 0, 0⟩], [], [], []⟩

/-- Number of loop iterations, counting from index `i` with `fuel` records
left, that both survive the budget check and find a truthy `wayback_url`
in the (load-time) record — i.e. the skip-counter increments. -/
def skippedCount (cfg : Config) (env : Env) (loaded : List Record) : Nat → Nat → Nat
  | _, 0 => 0
  | i, fuel + 1 =>
    if env.elapsed i > cfg.timeout then 0
    else (if (loaded.getD i dfltRec).wayback_url != "" then 1 else 0) +
      skippedCount cfg env loaded (i + 1) fuel

/-- Relation between a loaded record and a persisted/in-memory record: all
fields agree, except that `wayback_url` may have gone from empty to
non-empty. -/
def onlyWaybackUpgrades (orig nr : Record) : Prop :=
  nr.creation = orig.creation ∧ nr.size = orig.size ∧ nr.fullpath = orig.fullpath ∧
  nr.added = orig.added ∧ nr.removed = orig.removed ∧
  (nr.wayback_url = orig.wayback_url ∨ (orig.wayback_url = "" ∧ nr.wayback_url ≠ ""))

/-- A record list refines the loaded list: same length, and pointwise
`onlyWaybackUpgrades`. -/
def UpgradesFrom (loaded rs : List Record) : Prop :=
  rs.length = loaded.length ∧
  ∀ j, onlyWaybackUpgrades (loaded.getD j dfltRec) (rs.getD j dfltRec)

lemma onlyWaybackUpgrades_refl (r : Record) : onlyWaybackUpgrades r r :=
  ⟨rfl, rfl, rfl, rfl, rfl, Or.inl rfl⟩

lemma upgradesFrom_refl (l : List Record) : UpgradesFrom l l :=
  ⟨rfl, fun _ => onlyWaybackUpgrades_refl _⟩

/-- A record whose loaded `wayback_url` was non-empty is frozen: any
upgrade-related record equals it. -/
lemma upgrade_frozen {orig nr : Record} (h : onlyWaybackUpgrades orig nr)
    (hw : orig.wayback_url ≠ "") : nr = orig := by
  obtain ⟨h1, h2, h3, h4, h5, h6⟩ := h
  cases nr; cases orig
  simp only at h1 h2 h3 h4 h5 h6 ⊢
  subst h1; subst h2; subst h3; subst h4; subst h5
  rcases h6 with h6 | ⟨h6, -⟩
  · simp [h6]
  · exact absurd h6 hw

/-- Setting `wayback_url` on a record that currently has it empty keeps the
upgrade relation to its origin. -/
lemma onlyWaybackUpgrades_update {orig row : Record} (u : String)
    (h : onlyWaybackUpgrades orig row) (hw : row.wayback_url = "") :
    onlyWaybackUpgrades orig { row with wayback_url := u } := by
  obtain ⟨h1, h2, h3, h4, h5, h6⟩ := h
  have horig : orig.wayback_url = "" := by
    rcases h6 with h6 | ⟨h6, -⟩
    · rw [← h6, hw]
    · exact h6
  refine ⟨h1, h2, h3, h4, h5, ?_⟩
  by_cases hu : u = ""
  · exact Or.inl (by simp [hu, horig])
  · exact Or.inr ⟨horig, by simpa using hu⟩

lemma getD_set_self {α : Type _} (l : List α) (i : Nat) (a d : α)
    (h : i < l.length) : (l.set i a).getD i d = a := by
  simp [List.getD, List.getElem?_set_self, h]

lemma getD_set_other {α : Type _} (l : List α) (i j : Nat) (a d : α)
    (h : i ≠ j) : (l.set i a).getD j d = l.getD j d := by
  simp [List.getD, List.getElem?_set_ne, h]

/-- Updating index `i` with a record that upgrades `loaded`'s entry there
preserves the whole-list refinement. -/
lemma upgradesFrom_set {loaded rs : List Record} {i : Nat} {nr : Record}
    (h : UpgradesFrom loaded rs)
    (hn : onlyWaybackUpgrades (loaded.getD i dfltRec) nr) :
    UpgradesFrom loaded (rs.set i nr) := by
  refine ⟨by rw [List.length_set]; exact h.1, fun j => ?_⟩
  by_cases hij : i = j
  · subst hij
    by_cases hlt : i < rs.length
    · rw [getD_set_self _ _ _ _ hlt]; exact hn
    · rw [List.set_eq_of_length_le (Nat.le_of_not_lt hlt)]; exact h.2 i
  · rw [getD_set_other _ _ _ _ _ hij]; exact h.2 j

/-- Loop invariant relative to the loaded records, parameterized by the
index `i` of the next iteration: the in-memory records and every CSV write
so far refine the loaded list; every stats write so far has `failed = 0`
and the history starts with the startup all-zero write; records at indices
`≥ i` are still exactly as loaded; and every network call so far was for a
record that was pending (`wayback_url` empty) and not removed at load. -/
structure LoopInv (loaded : List Record) (i : Nat) (s : LoopState) : Prop where
  rec_inv : UpgradesFrom loaded s.records
  saves_inv : ∀ save ∈ s.csvSaves, UpgradesFrom loaded save
  stats_failed : ∀ st ∈ s.statsSaves, st.failed = 0
  stats_head : ∃ rest, s.statsSaves = Stats.mk 0 0 0 :: rest
  untouched : ∀ j, i ≤ j → s.records.getD j dfltRec = loaded.getD j dfltRec
  check_ok : ∀ j ∈ s.checkCalls,
    (loaded.getD j dfltRec).wayback_url = "" ∧ (loaded.getD j dfltRec).removed = ""
  submit_ok : ∀ j ∈ s.submitCalls,
    (loaded.getD j dfltRec).wayback_url = "" ∧ (loaded.getD j dfltRec).removed = ""

lemma inv_mono {loaded : List Record} {i i' : Nat} {s : LoopState}
    (hle : i ≤ i') (h : LoopInv loaded i s) : LoopInv loaded i' s :=
  ⟨h.rec_inv, h.saves_inv, h.stats_failed, h.stats_head,
   fun j hj => h.untouched j (Nat.le_trans hle hj), h.check_ok, h.submit_ok⟩

lemma inv_init (loaded : List Record) : LoopInv loaded 0 (initState loaded) := by
  refine ⟨upgradesFrom_refl loaded, ?_, ?_, ⟨[], rfl⟩, fun j _ => rfl, ?_, ?_⟩ <;>
    simp [initState]

lemma saveAll_inv {loaded : List Record} {i : Nat} {s : LoopState}
    (h : LoopInv loaded i s) : LoopInv loaded i (saveAll s) := by
  obtain ⟨rest, hrest⟩ := h.stats_head
  refine ⟨h.rec_inv, ?_, ?_, ⟨rest ++ [statsOf s], by rw [saveAll, hrest]; rfl⟩,
    h.untouched, h.check_ok, h.submit_ok⟩
  · intro save hsave
    rcases List.mem_append.mp hsave with hs | hs
    · exact h.saves_inv save hs
    · rw [List.mem_singleton.mp hs]; exact h.rec_inv
  · intro st hst
    rcases List.mem_append.mp hst with hs | hs
    · exact h.stats_failed st hs
    · rw [List.mem_singleton.mp hs]; rfl

/-- One loop-body iteration preserves the invariant, advancing the
untouched-suffix index. -/
lemma step_preserves (cfg : Config) (env : Env) {loaded : List Record}
    {i : Nat} {s : LoopState} (h : LoopInv loaded i s) :
    LoopInv loaded (i + 1) (stepRecord cfg env i s) := by
  have hrow : s.records.getD i dfltRec = loaded.getD i dfltRec :=
    h.untouched i (Nat.le_refl i)
  unfold stepRecord
  split_ifs with h1 h2 h3 h4
  · -- already archived: only `skipped` changes
    exact ⟨h.rec_inv, h.saves_inv, h.stats_failed, h.stats_head,
      fun j hj => h.untouched j (by omega), h.check_ok, h.submit_ok⟩
  · -- removed: state unchanged
    exact inv_mono (Nat.le_succ i) h
  all_goals
    simp only [bne_iff_ne, ne_eq, not_not] at h1 h2
  · -- found existing: set wayback_url, bump found_existing, checkpoint
    refine saveAll_inv ⟨?_, h.saves_inv, h.stats_failed, h.stats_head, ?_, ?_, h.submit_ok⟩
    · exact upgradesFrom_set h.rec_inv
        (onlyWaybackUpgrades_update _ (h.rec_inv.2 i) h1)
    · intro j hj
      have hij : i ≠ j := by omega
      show (s.records.set i _).getD j dfltRec = _
      rw [getD_set_other _ _ _ _ _ hij]
      exact h.untouched j (by omega)
    · intro j hj
      rcases List.mem_append.mp hj with hm | hm
      · exact h.check_ok j hm
      · rw [List.mem_singleton.mp hm]
        exact ⟨hrow ▸ h1, hrow ▸ h2⟩
  · -- check-only mode: only the check call is recorded
    refine ⟨h.rec_inv, h.saves_inv, h.stats_failed, h.stats_head,
      fun j hj => h.untouched j (by omega), ?_, h.submit_ok⟩
    intro j hj
    rcases List.mem_append.mp hj with hm | hm
    · exact h.check_ok j hm
    · rw [List.mem_singleton.mp hm]
      exact ⟨hrow ▸ h1, hrow ▸ h2⟩
  · -- submission branch: split on the retry loop's result
    have hcall : ∀ j, j ∈ s.checkCalls ++ [i] ∨ j ∈ s.submitCalls ++ [i] →
        (loaded.getD j dfltRec).wayback_url = "" ∧ (loaded.getD j dfltRec).removed = "" := by
      intro j hj
      have : j ∈ s.checkCalls ∨ j ∈ s.submitCalls ∨ j = i := by
        rcases hj with hm | hm <;> rcases List.mem_append.mp hm with hm' | hm'
        · exact Or.inl hm'
        · exact Or.inr (Or.inr (List.mem_singleton.mp hm'))
        · exact Or.inr (Or.inl hm')
        · exact Or.inr (Or.inr (List.mem_singleton.mp hm'))
      rcases this with hm | hm | hm
      · exact h.check_ok j hm
      · exact h.submit_ok j hm
      · subst hm; exact ⟨hrow ▸ h1, hrow ▸ h2⟩
    split
    · -- success: set wayback_url, bump archived, checkpoint
      refine saveAll_inv ⟨?_, h.saves_inv, h.stats_failed, h.stats_head, ?_, ?_, ?_⟩
      · exact upgradesFrom_set h.rec_inv
          (onlyWaybackUpgrades_update _ (h.rec_inv.2 i) h1)
      · intro j hj
        have hij : i ≠ j := by omega
        show (s.records.set i _).getD j dfltRec = _
        rw [getD_set_other _ _ _ _ _ hij]
        exact h.untouched j (by omega)
      · exact fun j hj => hcall j (Or.inl hj)
      · exact fun j hj => hcall j (Or.inr hj)
    · -- failure: only the calls are recorded
      exact ⟨h.rec_inv, h.saves_inv, h.stats_failed, h.stats_head,
        fun j hj => h.untouched j (by omega),
        fun j hj => hcall j (Or.inl hj), fun j hj => hcall j (Or.inr hj)⟩

/-- Running the loop from any invariant-satisfying state preserves the
invariant (at the index past the last possible iteration). -/
lemma runFrom_inv (cfg : Config) (env : Env) {loaded : List Record} :
    ∀ (fuel i : Nat) {s : LoopState}, LoopInv loaded i s →
      LoopInv loaded (i + fuel) (runFrom cfg env i fuel s) := by
  intro fuel
  induction fuel with
  | zero => intro i s h; simpa [runFrom] using h
  | succ n ih =>
    intro i s h
    rw [runFrom]
    split_ifs with ht
    · exact inv_mono (by omega) h
    · exact inv_mono (by omega) (ih (i + 1) (step_preserves cfg env h))

/-- The loop body bumps `skipped` exactly when the current record has a
truthy `wayback_url`, and leaves it alone otherwise. -/
lemma step_skipped (cfg : Config) (env : Env) (i : Nat) (s : LoopState) :
    (stepRecord cfg env i s).skipped =
      s.skipped + (if (s.records.getD i dfltRec).wayback_url != "" then 1 else 0) := by
  unfold stepRecord
  cases hb : (s.records.getD i dfltRec).wayback_url != ""
  · simp only [hb, Bool.false_eq_true, if_false, Nat.add_zero]
    split_ifs <;> first | rfl | (split <;> rfl)
  · simp [hb]

/-- The whole loop's `skipped` counter equals its start value plus the
number of budget-surviving iterations whose loaded record was already
archived. -/
lemma runFrom_skipped (cfg : Config) (env : Env) {loaded : List Record} :
    ∀ (fuel i : Nat) {s : LoopState}, LoopInv loaded i s →
      (runFrom cfg env i fuel s).skipped =
        s.skipped + skippedCount cfg env loaded i fuel := by
  intro fuel
  induction fuel with
  | zero => intro i s _; simp [runFrom, skippedCount]
  | succ n ih =>
    intro i s h
    by_cases ht : env.elapsed i > cfg.timeout
    · rw [runFrom, skippedCount, if_pos ht, if_pos ht, Nat.add_zero]
    · rw [runFrom, skippedCount, if_neg ht, if_neg ht,
        ih (i + 1) (step_preserves cfg env h), step_skipped cfg env i s,
        h.untouched i (Nat.le_refl i), Nat.add_assoc]

/-- The invariant holds of the final state of a full run. -/
lemma mainRun_inv (cfg : Config) (env : Env) (loaded : List Record) :
    LoopInv loaded loaded.length (mainRun cfg env loaded) :=
  saveAll_inv (by
    simpa using runFrom_inv cfg env loaded.length 0 (inv_init loaded))

/-- The final `skipped` counter of a full run. -/
lemma mainRun_skipped (cfg : Config) (env : Env) (loaded : List Record) :
    (mainRun cfg env loaded).skipped =
      skippedCount cfg env loaded 0 loaded.length := by
  have h := runFrom_skipped cfg env loaded.length 0 (inv_init loaded)
  simpa [mainRun, runLoop, saveAll, initState] using h

/-- Default command line: `--timeout 300`, archive mode. -/
def cfgDefault : Config := ⟨300, false⟩

/-- Command line `--timeout 0`. -/
def cfgZero : Config := ⟨0, false⟩

/-- World where no time passes, every availability check fails on
transport, and every submission attempt raises a transport error. -/
def envQuiet : Env :=
  ⟨fun _ => 0, fun _ _ => CheckResponse.transportError, fun _ _ _ => SubmitOutcome.exn⟩

/-- World where one second has always elapsed, otherwise like `envQuiet`. -/
def envLate : Env :=
  ⟨fun _ => 1, fun _ _ => CheckResponse.transportError, fun _ _ _ => SubmitOutcome.exn⟩

/-- World where every availability check reports an available snapshot. -/
def envFound : Env :=
  ⟨fun _ => 0,
   fun _ _ => CheckResponse.json (some ⟨some ⟨true, some "https://web.archive.org/web/1/x"⟩⟩),
   fun _ _ _ => SubmitOutcome.exn⟩

/-- World where every submission attempt gets HTTP 404. -/
def env404 : Env :=
  ⟨fun _ => 0, fun _ _ => CheckResponse.transportError,
   fun _ _ _ => SubmitOutcome.httpError 404⟩

/-- World where the first submission attempt gets HTTP 429 and the second
succeeds with a `Content-Location` header. -/
def env429 : Env :=
  ⟨fun _ => 0, fun _ _ => CheckResponse.transportError,
   fun _ _ n => if n = 0 then SubmitOutcome.httpError 429
     else SubmitOutcome.success (some "/web/2/y") "unused"⟩

/-- A record already archived at load time. -/
def preRec : Record :=
  ⟨"2024-01-01", "10", "fw/a.bin", "2024-01-02", "", "https://web.archive.org/web/0/a"⟩

/-- A removed, pending record. -/
def remRec : Record := ⟨"2024-01-01", "10", "fw/b.bin", "2024-01-02", "yes", ""⟩

/-- A pending, not-removed record. -/
def pendRec : Record := ⟨"2024-01-01", "10", "fw/c.bin", "2024-01-02", "", ""⟩

/-- Claim C1: every save of the record collection (after a found-existing
transition, after a successful submission, and at loop exit) writes exactly
the records that were loaded, in the same order and count, with the fixed
field order `creation,size,fullpath,added,removed,wayback_url` and a header
row; the only field ever mutated in any record is `wayback_url`, and only
from empty to non-empty. -/
theorem C1_saves_preserve_records (cfg : Config) (env : Env)
    (loaded : List Record) (save : List Record)
    (hs : save ∈ (mainRun cfg env loaded).csvSaves) :
    save.length = loaded.length ∧
    (∀ j, onlyWaybackUpgrades (loaded.getD j dfltRec) (save.getD j dfltRec)) ∧
    serializeCsv save = csvHeader :: save.map recordRow := by
  have h := (mainRun_inv cfg env loaded).saves_inv save hs
  exact ⟨h.1, h.2, rfl⟩

/-- Witness for C1 at a concrete run: the single save of a one-record run. -/
theorem C1_saves_preserve_records_witness :
    [preRec].length = [preRec].length ∧
    (∀ j, onlyWaybackUpgrades ([preRec].getD j dfltRec) ([preRec].getD j dfltRec)) ∧
    serializeCsv [preRec] = csvHeader :: [preRec].map recordRow :=
  C1_saves_preserve_records cfgDefault envQuiet [preRec] [preRec] (by decide)

/-- Every loop-body iteration either leaves `archived`, `found_existing`
and the stats-file history all unchanged, or appends exactly one stats
write reflecting the post-step counters. -/
lemma step_stats_cases (cfg : Config) (env : Env) (i : Nat) (s : LoopState) :
    ((stepRecord cfg env i s).archived = s.archived ∧
     (stepRecord cfg env i s).found_existing = s.found_existing ∧
     (stepRecord cfg env i s).statsSaves = s.statsSaves) ∨
    (stepRecord cfg env i s).statsSaves =
      s.statsSaves ++ [statsOf (stepRecord cfg env i s)] := by
  unfold stepRecord
  split_ifs <;> try (left; exact ⟨rfl, rfl, rfl⟩)
  · right; rfl
  · split
    · right; rfl
    · left; exact ⟨rfl, rfl, rfl⟩

/-- Claim C2 counterexample: at the concrete step that skips a record
already archived at load, the counters that the status file reports change
(`skipped` feeds `already_archived`) but no status-file write happens
before the next record. -/
theorem C2_counterexample :
    statsOf (stepRecord cfgDefault envQuiet 0 (initState [preRec])) ≠
      statsOf (initState [preRec]) ∧
    (stepRecord cfgDefault envQuiet 0 (initState [preRec])).statsSaves =
      (initState [preRec]).statsSaves := by decide

/-- Claim C2 (amended): after every mutation of `new_archives` or of the
found-existing counter the status file is immediately rewritten with the
current counter values, before the next record; mutations of the skip
counter alone are not followed by a status-file write. -/
theorem C2_transition_writes (cfg : Config) (env : Env) (i : Nat)
    (s : LoopState)
    (hmut : (stepRecord cfg env i s).archived ≠ s.archived ∨
      (stepRecord cfg env i s).found_existing ≠ s.found_existing) :
    (stepRecord cfg env i s).statsSaves =
      s.statsSaves ++ [statsOf (stepRecord cfg env i s)] := by
  rcases step_stats_cases cfg env i s with ⟨ha, hf, _⟩ | h
  · rcases hmut with hm | hm
    · exact absurd ha hm
    · exact absurd hf hm
  · exact h

/-- Witness for C2 (amended) at a concrete found-existing transition. -/
theorem C2_transition_writes_witness :
    (stepRecord cfgDefault envFound 0 (initState [pendRec])).statsSaves =
      (initState [pendRec]).statsSaves ++
        [statsOf (stepRecord cfgDefault envFound 0 (initState [pendRec]))] :=
  C2_transition_writes cfgDefault envFound 0 (initState [pendRec])
    (Or.inr (by decide))

/-- Claim C3 counterexample: with a timeout of 0 and positive elapsed time,
a record that is already archived at load is never reached, so its skip
increment never happens (final `skipped` is 0, not 1). -/
theorem C3_counterexample :
    preRec.wayback_url ≠ "" ∧
    (mainRun cfgZero envLate [preRec]).skipped = 0 := by decide

/-- Claim C3 (amended): for every record whose `wayback_url` is non-empty
at load, the driver loop issues no network call for it and writes it back
unchanged in every save; the skip counter is incremented exactly once for
each such record among the iterations reached before the time cutoff (and
not at all for those past the cutoff). -/
theorem C3_preArchived_frame (cfg : Config) (env : Env) (loaded : List Record) :
    (∀ j, (loaded.getD j dfltRec).wayback_url ≠ "" →
      j ∉ (mainRun cfg env loaded).checkCalls ∧
      j ∉ (mainRun cfg env loaded).submitCalls ∧
      ∀ save ∈ (mainRun cfg env loaded).csvSaves,
        save.getD j dfltRec = loaded.getD j dfltRec) ∧
    (mainRun cfg env loaded).skipped = skippedCount cfg env loaded 0 loaded.length := by
  refine ⟨fun j hj => ⟨?_, ?_, ?_⟩, mainRun_skipped cfg env loaded⟩
  · intro hmem
    exact hj ((mainRun_inv cfg env loaded).check_ok j hmem).1
  · intro hmem
    exact hj ((mainRun_inv cfg env loaded).submit_ok j hmem).1
  · intro save hs
    exact upgrade_frozen (((mainRun_inv cfg env loaded).saves_inv save hs).2 j) hj

/-- Witness for C3 (amended) at a concrete run over one pre-archived
record that the loop does reach. -/
theorem C3_preArchived_frame_witness :
    0 ∉ (mainRun cfgDefault envQuiet [preRec]).checkCalls ∧
    (mainRun cfgDefault envQuiet [preRec]).skipped =
      skippedCount cfgDefault envQuiet [preRec] 0 [preRec].length :=
  ⟨((C3_preArchived_frame cfgDefault envQuiet [preRec]).1 0 (by decide)).1,
   (C3_preArchived_frame cfgDefault envQuiet [preRec]).2⟩

/-- Claim C4: a record with non-empty `removed` and empty `wayback_url` is
never checked against the availability endpoint and never submitted; its
loop iteration changes nothing at all (no counters, no writes) and the loop
moves on to the next record. -/
theorem C4_removed_skipped_silently (cfg : Config) (env : Env) :
    (∀ i s, ((s : LoopState).records.getD i dfltRec).wayback_url = "" →
      (s.records.getD i dfltRec).removed ≠ "" → stepRecord cfg env i s = s) ∧
    (∀ loaded j, ((loaded : List Record).getD j dfltRec).removed ≠ "" →
      j ∉ (mainRun cfg env loaded).checkCalls ∧
      j ∉ (mainRun cfg env loaded).submitCalls) := by
  constructor
  · intro i s hw hr
    unfold stepRecord
    rw [if_neg (by simpa using hw), if_pos (by simpa using hr)]
  · intro loaded j hr
    constructor
    · intro hmem
      exact hr ((mainRun_inv cfg env loaded).check_ok j hmem).2
    · intro hmem
      exact hr ((mainRun_inv cfg env loaded).submit_ok j hmem).2

/-- Witness for C4 at a concrete removed record. -/
theorem C4_removed_skipped_silently_witness :
    stepRecord cfgDefault envQuiet 0 (initState [remRec]) = initState [remRec] ∧
    0 ∉ (mainRun cfgDefault envQuiet [remRec]).checkCalls :=
  ⟨(C4_removed_skipped_silently cfgDefault envQuiet).1 0 (initState [remRec])
      (by decide) (by decide),
   ((C4_removed_skipped_silently cfgDefault envQuiet).2 [remRec] 0 (by decide)).1⟩

/-- Claim C5: when the first submission attempt gets an HTTP error status
other than 429 and 520 (e.g. 404), the retry loop stops after exactly one
attempt with no waits and no archive URL; the loop iteration leaves the
record (and hence every later save of it) untouched, records only the two
network calls, and returns normally so the run proceeds to the next
record. -/
theorem C5_terminal_http_one_attempt (cfg : Config) (env : Env) (i : Nat)
    (s : LoopState) (code : Nat)
    (hco : cfg.checkOnly = false)
    (h429 : code ≠ 429) (h520 : code ≠ 520)
    (hw : (s.records.getD i dfltRec).wayback_url = "")
    (hr : (s.records.getD i dfltRec).removed = "")
    (hchk : pyTruthy (check_if_archived
      (env.checkResp i (targetUrl (s.records.getD i dfltRec)))) = false)
    (hsub : env.submitResp i (targetUrl (s.records.getD i dfltRec)) 0 =
      SubmitOutcome.httpError code) :
    submit (env.submitResp i (targetUrl (s.records.getD i dfltRec))) =
      ⟨none, 1, []⟩ ∧
    stepRecord cfg env i s =
      { s with checkCalls := s.checkCalls ++ [i],
               submitCalls := s.submitCalls ++ [i] } := by
  have hsubmit : submit (env.submitResp i (targetUrl (s.records.getD i dfltRec))) =
      ⟨none, 1, []⟩ := by
    rw [submit]
    show submitFrom _ 0 (4 + 1) = _
    rw [submitFrom, hsub]
    simp [h429, h520]
  refine ⟨hsubmit, ?_⟩
  unfold stepRecord
  rw [if_neg (by simpa using hw), if_neg (by simpa using hr),
    if_neg (by simpa using hchk), if_neg (by simp [hco]), hsubmit]

/-- Witness for C5 at a concrete always-404 submission endpoint. -/
theorem C5_terminal_http_one_attempt_witness :
    submit (env404.submitResp 0 (targetUrl ((initState [pendRec]).records.getD 0 dfltRec))) =
      ⟨none, 1, []⟩ ∧
    stepRecord cfgDefault env404 0 (initState [pendRec]) =
      { initState [pendRec] with
          checkCalls := (initState [pendRec]).checkCalls ++ [0],
          submitCalls := (initState [pendRec]).submitCalls ++ [0] } :=
  C5_terminal_http_one_attempt cfgDefault env404 0 (initState [pendRec]) 404
    rfl (by decide) (by decide) (by decide) (by decide) (by decide) rfl

/-- Claim C6: when the first submission attempt is rate limited (HTTP 429)
and the second succeeds, the retry loop succeeds with exactly 2 attempts,
the single wait between them is the fixed 180-second rate-limit cooldown,
and the loop iteration sets the record's `wayback_url` from the success
response, bumps `new_archives` and checkpoints both files. -/
theorem C6_rate_limit_then_success (cfg : Config) (env : Env) (i : Nat)
    (s : LoopState) (cl : Option String) (finalUrl : String)
    (hco : cfg.checkOnly = false)
    (hw : (s.records.getD i dfltRec).wayback_url = "")
    (hr : (s.records.getD i dfltRec).removed = "")
    (hchk : pyTruthy (check_if_archived
      (env.checkResp i (targetUrl (s.records.getD i dfltRec)))) = false)
    (h0 : env.submitResp i (targetUrl (s.records.getD i dfltRec)) 0 =
      SubmitOutcome.httpError 429)
    (h1 : env.submitResp i (targetUrl (s.records.getD i dfltRec)) 1 =
      SubmitOutcome.success cl finalUrl) :
    submit (env.submitResp i (targetUrl (s.records.getD i dfltRec))) =
      ⟨some (mkArchivedUrl cl finalUrl), 2, [180]⟩ ∧
    stepRecord cfg env i s = saveAll { s with
      records := s.records.set i
        { s.records.getD i dfltRec with wayback_url := mkArchivedUrl cl finalUrl },
      archived := s.archived + 1,
      checkCalls := s.checkCalls ++ [i],
      submitCalls := s.submitCalls ++ [i] } := by
  have h4 : submitFrom (env.submitResp i (targetUrl (s.records.getD i dfltRec))) 1 4 =
      ⟨some (mkArchivedUrl cl finalUrl), 1, []⟩ := by
    show submitFrom _ 1 (3 + 1) = _
    rw [submitFrom, h1]
  have hsubmit : submit (env.submitResp i (targetUrl (s.records.getD i dfltRec))) =
      ⟨some (mkArchivedUrl cl finalUrl), 2, [180]⟩ := by
    rw [submit]
    show submitFrom _ 0 (4 + 1) = _
    rw [submitFrom, h0]
    show (⟨(submitFrom (env.submitResp i (targetUrl (s.records.getD i dfltRec))) 1 4).result,
      (submitFrom (env.submitResp i (targetUrl (s.records.getD i dfltRec))) 1 4).attemptsMade + 1,
      180 :: (submitFrom (env.submitResp i (targetUrl (s.records.getD i dfltRec))) 1 4).waits⟩ :
        SubmitResult) = _
    rw [h4]
  refine ⟨hsubmit, ?_⟩
  unfold stepRecord
  rw [if_neg (by simpa using hw), if_neg (by simpa using hr),
    if_neg (by simpa using hchk), if_neg (by simp [hco]), hsubmit]

/-- Witness for C6 at a concrete 429-then-success submission endpoint. -/
theorem C6_rate_limit_then_success_witness :
    submit (env429.submitResp 0 (targetUrl ((initState [pendRec]).records.getD 0 dfltRec))) =
      ⟨some (mkArchivedUrl (some "/web/2/y") "unused"), 2, [180]⟩ ∧
    stepRecord cfgDefault env429 0 (initState [pendRec]) = saveAll { initState [pendRec] with
      records := (initState [pendRec]).records.set 0
        { (initState [pendRec]).records.getD 0 dfltRec with
            wayback_url := mkArchivedUrl (some "/web/2/y") "unused" },
      archived := (initState [pendRec]).archived + 1,
      checkCalls := (initState [pendRec]).checkCalls ++ [0],
      submitCalls := (initState [pendRec]).submitCalls ++ [0] } :=
  C6_rate_limit_then_success cfgDefault env429 0 (initState [pendRec])
    (some "/web/2/y") "unused" rfl (by decide) (by decide) (by decide) rfl rfl

/-- Claim C7: the availability check never raises to its caller — every
caught failure of its body (transport error, malformed JSON) and every
response not reporting an available closest snapshot yield `none`, and only
a response reporting an available closest snapshot yields that snapshot's
url. -/
theorem C7_check_never_raises (r : CheckResponse) :
    check_if_archived r = availableClosestUrl r := by
  rcases r with _ | _ | (_ | ⟨_ | c⟩)
  · rfl
  · rfl
  · rfl
  · rfl
  · cases hc : c.available <;>
      simp [check_if_archived, check_body, availableClosestUrl, hc]

/-- Claim C8: with a timeout of 0 and any positive elapsed time at the
first budget check, the loop processes zero records — the counters stay
zero even for records pre-archived on load, and no network call or
mid-loop write happens — yet the final unconditional persist still rewrites
the record file with the loaded records and the status file with all-zero
counters. -/
theorem C8_zero_timeout (cfg : Config) (env : Env) (loaded : List Record)
    (ht : cfg.timeout = 0) (he : 0 < env.elapsed 0) :
    mainRun cfg env loaded =
      { records := loaded, archived := 0, skipped := 0, found_existing := 0,
        csvSaves := [loaded], statsSaves := [⟨0, 0, 0⟩, ⟨0, 0, 0⟩],
        checkCalls := [], submitCalls := [] } := by
  have hloop : runLoop cfg env loaded = initState loaded := by
    cases loaded with
    | nil => rfl
    | cons a l =>
      rw [runLoop]
      show runFrom cfg env 0 (l.length + 1) _ = _
      rw [runFrom, if_pos (by omega)]
  rw [mainRun, hloop]
  rfl

/-- Witness for C8 at a concrete zero-timeout run over one pre-archived
record. -/
theorem C8_zero_timeout_witness :
    mainRun cfgZero envLate [preRec] =
      { records := [preRec], archived := 0, skipped := 0, found_existing := 0,
        csvSaves := [[preRec]], statsSaves := [⟨0, 0, 0⟩, ⟨0, 0, 0⟩],
        checkCalls := [], submitCalls := [] } :=
  C8_zero_timeout cfgZero envLate [preRec] rfl (by decide)

/-- Claim C9: every status-file write of a run — the startup write, every
mid-loop checkpoint and the final flush, whether or not the input file
existed — has `failed = 0`, and its third line is literally `failed=0`. -/
theorem C9_failed_always_zero (fileExists : Bool) (cfg : Config) (env : Env)
    (loaded : List Record) (st : Stats)
    (hst : st ∈ (mainEntry fileExists cfg env loaded).statsWrites) :
    st.failed = 0 ∧ (serializeStats st).getD 2 "" = "failed=0" := by
  have hf : st.failed = 0 := by
    cases fileExists with
    | false =>
      have : st = ⟨0, 0, 0⟩ := by simpa [mainEntry] using hst
      rw [this]
    | true =>
      exact (mainRun_inv cfg env loaded).stats_failed st
        (by simpa [mainEntry] using hst)
  refine ⟨hf, ?_⟩
  show "failed=" ++ toString st.failed = "failed=0"
  rw [hf]
  rfl

/-- Witness for C9 at the startup write of a missing-input run. -/
theorem C9_failed_always_zero_witness :
    (⟨0, 0, 0⟩ : Stats).failed = 0 ∧
    (serializeStats ⟨0, 0, 0⟩).getD 2 "" = "failed=0" :=
  C9_failed_always_zero false cfgDefault envQuiet [] ⟨0, 0, 0⟩ (by decide)

/-- Claim C10: the status file is overwritten with all-zero counters before
the input file's existence is checked: a run whose input file is missing
exits with code 1 having written no record file and issued no network
calls, but its status-file history is exactly the fresh all-zero write; and
even in a run whose input exists, the first status write is the all-zero
one. -/
theorem C10_stats_before_existence_check (cfg : Config) (env : Env)
    (loaded : List Record) :
    mainEntry false cfg env loaded = ⟨1, [⟨0, 0, 0⟩], [], [], []⟩ ∧
    (mainEntry true cfg env loaded).statsWrites.getD 0 ⟨1, 1, 1⟩ = ⟨0, 0, 0⟩ := by
  refine ⟨rfl, ?_⟩
  obtain ⟨rest, hrest⟩ := (mainRun_inv cfg env loaded).stats_head
  simp [mainEntry, hrest]
